import Mathlib

/-!
Verification of the lazycloud repository against its specification.

The first half embeds the Go source under `src/` (the AWS Lambda service
wrapper and the Lambda UI view) as Lean definitions; machine integers are
modelled as `Int`/`Nat`, nilable Go pointers as `Option`, Go maps as
association lists, and a Go nil-pointer dereference as an `Option.none`
result of the embedded conversion.  The second half models the resource
caching and fetch-orchestration core described by the specification; that
core has no implementation under `src/`, so its definitions are modelled
from the specification text and are marked as such.
-/

namespace LazyCloud

/-! ## Embedding of the Lambda service (Go package `lambda`) -/

/-- The fixed keyword list of `isSensitiveEnvVar` (src/unnamed/part_000). -/
def sensitiveKeys : List String :=
  ["PASSWORD", "PASSWD", "SECRET", "KEY", "TOKEN", "API_KEY",
   "AWS_SECRET_ACCESS_KEY", "DATABASE_PASSWORD", "DB_PASSWORD",
   "PRIVATE_KEY", "CERT", "CREDENTIAL"]

/-- The inner index loop of `isSensitiveEnvVar`: scan positions
`i = 0 .. len(key) - len(sensitive)` for an occurrence of `sensitive`
starting at `i` (Go slices bytes; all keywords are ASCII, so the
character-level scan is equivalent). -/
def scanForKeyword (key sensitive : List Char) : Bool :=
  (List.range (key.length - sensitive.length + 1)).any
    (fun i => decide ((key.drop i).take sensitive.length = sensitive))

/-- Embedding of `isSensitiveEnvVar` (src/unnamed/part_000): for each
keyword, if the key equals it or is longer, scan for a contiguous
occurrence.  (The Go code names the unchanged key `keyUpper`.) -/
def isSensitiveEnvVar (key : String) : Bool :=
  let keyUpper := key
  sensitiveKeys.any (fun sensitive =>
    (keyUpper == sensitive || keyUpper.length > sensitive.length) &&
      scanForKeyword keyUpper.data sensitive.data)

/-- AWS SDK `EnvironmentResponse`: the `Variables` map may be nil. -/
structure EnvironmentResponse where
  Variables : Option (List (String × String))
deriving DecidableEq

/-- AWS SDK `FunctionConfiguration`; pointer fields are `Option`,
enum-typed fields (`Runtime`, `State`) are the strings the Go code casts
them to. -/
structure FunctionConfiguration where
  FunctionName : Option String
  Runtime : String
  Handler : Option String
  Description : Option String
  MemorySize : Option Int
  Timeout : Option Int
  State : String
  LastModified : Option String
  Environment : Option EnvironmentResponse
deriving DecidableEq

/-- The `Function` record of the repository (src/unnamed/part_000).  Go
`time.Time` is modelled as `Nat` with `0` as the zero time. -/
structure Function where
  Name : String
  Runtime : String
  Handler : String
  Description : String
  Memory : Int
  Timeout : Int
  LastModified : Nat
  Status : String
  Environment : List (String × String)
deriving DecidableEq

/-- The record construction in the page loop of `Service.ListFunctions`
(src/unnamed/part_000 lines 159-192).  `parse` stands for the external
`time.Parse(time.RFC3339, ...)`; a `none` result is the Go parse error, on
which the field keeps the zero time.  The result is `none` exactly when
one of the four unguarded pointer dereferences (`FunctionName`,
`Handler`, `MemorySize`, `Timeout`) would panic on nil. -/
def convertFunctionList (parse : String → Option Nat)
    (fn : FunctionConfiguration) : Option Function :=
  match fn.FunctionName, fn.Handler, fn.MemorySize, fn.Timeout with
  | some name, some handler, some memory, some timeout =>
    some
      { Name := name
        Runtime := fn.Runtime
        Handler := handler
        Memory := memory
        Timeout := timeout
        Status := fn.State
        Description :=
          match fn.Description with
          | some d => d
          | none => ""
        LastModified :=
          match fn.LastModified with
          | some lm =>
            match parse lm with
            | some t => t
            | none => 0
          | none => 0
        Environment :=
          match fn.Environment with
          | some env =>
            match env.Variables with
            | some vars =>
              vars.map (fun kv =>
                (kv.1, if isSensitiveEnvVar kv.1 then "***masked***" else kv.2))
            | none => []
          | none => [] }
  | _, _, _, _ => none

/-- The record construction in `Service.GetFunction`
(src/unnamed/part_000 lines 209-240), embedded separately from the
`ListFunctions` copy so the two code blocks can be compared. -/
def convertFunctionGet (parse : String → Option Nat)
    (fn : FunctionConfiguration) : Option Function :=
  match fn.FunctionName, fn.Handler, fn.MemorySize, fn.Timeout with
  | some name, some handler, some memory, some timeout =>
    some
      { Name := name
        Runtime := fn.Runtime
        Handler := handler
        Memory := memory
        Timeout := timeout
        Status := fn.State
        Description :=
          match fn.Description with
          | some d => d
          | none => ""
        LastModified :=
          match fn.LastModified with
          | some lm =>
            match parse lm with
            | some t => t
            | none => 0
          | none => 0
        Environment :=
          match fn.Environment with
          | some env =>
            match env.Variables with
            | some vars =>
              vars.map (fun kv =>
                (kv.1, if isSensitiveEnvVar kv.1 then "***masked***" else kv.2))
            | none => []
          | none => [] }
  | _, _, _, _ => none

/-- Errors returned by the AWS SDK calls, as the service code sees them. -/
inductive LambdaError where
  | providerError (msg : String)
  | deadlineExceeded
deriving DecidableEq

/-- The inner `for _, fn := range page.Functions` loop of
`Service.ListFunctions`: convert every configuration of a page, `none`
when a conversion would panic. -/
def convertPage (parse : String → Option Nat) :
    List FunctionConfiguration → Option (List Function)
  | [] => some []
  | fn :: rest =>
    match convertFunctionList parse fn with
    | none => none
    | some f =>
      match convertPage parse rest with
      | none => none
      | some fs => some (f :: fs)

/-- Embedding of `Service.ListFunctions` (src/unnamed/part_000 lines
145-197).  The paginator is modelled as the list of page results it
would deliver; on the first page error the function returns that error
and no list (Go: `return nil, err`), otherwise the concatenation of all
converted pages.  The outer `Option` is `none` when a nil dereference
in a conversion of a page before the first error would panic. -/
def ListFunctions (parse : String → Option Nat)
    (pages : List (Except LambdaError (List FunctionConfiguration))) :
    Option (Except LambdaError (List Function)) :=
  match pages with
  | [] => some (Except.ok [])
  | page :: rest =>
    match page with
    | Except.error e => some (Except.error e)
    | Except.ok fns =>
      match convertPage parse fns with
      | none => none
      | some converted =>
        match ListFunctions parse rest with
        | none => none
        | some (Except.error e) => some (Except.error e)
        | some (Except.ok more) => some (Except.ok (converted ++ more))

/-- The first error among the page results, the one where the Go loop stops. -/
def firstError {α : Type} : List (Except LambdaError α) → Option LambdaError
  | [] => none
  | Except.error e :: _ => some e
  | Except.ok _ :: rest => firstError rest

/-! ## Embedding of the Lambda view (src/internal/ui/views/lambda/view.go) -/

/-- A Go `context.Context`, reduced to its deadline (absolute time in
seconds; `none` means no deadline). -/
structure Context where
  deadline : Option Nat

/-- The context built by `View.loadFunctions` (view.go line 87):
`context.WithTimeout(context.Background(), 30*time.Second)`. -/
def loadFunctionsCtx (now : Nat) : Context :=
  { deadline := some (now + 30) }

/-- Modelled from the spec: the provider SDK call is cancellation-aware
via the supplied context (spec section 6, "Fetch function"): when the
work it has to do outruns the context deadline, the call returns a
deadline-exceeded error instead of hanging until its result is ready.
`start` is when the call begins and `duration` how long the underlying
work takes. -/
def runWithDeadline {α : Type} (ctx : Context) (start duration : Nat)
    (result : Except LambdaError α) : Except LambdaError α :=
  match ctx.deadline with
  | none => result
  | some d =>
    if d < start + duration then Except.error LambdaError.deadlineExceeded
    else result

/-- Embedding of `View.loadFunctions` (view.go lines 83-101), reduced to
the final status line it reports: the service call runs under the 30
second context; an error (the timeout case included) is reported as an
`Error:` status, success as a `Loaded n functions` status. -/
def loadFunctions (now duration : Nat)
    (result : Except LambdaError (List Function)) : String :=
  let ctx := loadFunctionsCtx now
  match runWithDeadline ctx now duration result with
  | Except.error LambdaError.deadlineExceeded => "Error: context deadline exceeded"
  | Except.error (LambdaError.providerError m) => "Error: " ++ m
  | Except.ok functions => "Loaded " ++ toString functions.length ++ " functions"

/-! ## The caching and fetch-orchestration core

None of the following components exist under `src/`; they are the core
the specification describes (sections 3-5) and are modelled from the
specification text. -/

/-- Modelled from the spec: `CacheEntry` (spec section 3) — value,
`storedAt` timestamp, `ttl` duration and the stamping session version.
Timestamps and durations are seconds as `Nat`. -/
structure CacheEntry (V : Type) where
  value : V
  storedAt : Nat
  ttl : Nat
  sessionVersion : Nat

/-- Modelled from the spec: `CacheStore` (spec section 4.1), a key/value
map; the bounded-capacity LRU eviction is not modelled (no claim is
settled on eviction, and LRU never evicts the entry that was just
put). -/
structure CacheStore (K V : Type) where
  entries : K → Option (CacheEntry V)

/-- Modelled from the spec: entry validity (spec section 3) — an entry
is valid iff `now - storedAt < ttl` and its session version is the
current one. -/
def entryValid {V : Type} (now ver : Nat) (e : CacheEntry V) : Bool :=
  decide (now - e.storedAt < e.ttl) && (e.sessionVersion == ver)

/-- Modelled from the spec: `CacheStore.Put` (spec section 4.1) —
overwrite any existing entry for the key, stamping the current session
version and current time. -/
def CacheStore.Put {K V : Type} [DecidableEq K] (s : CacheStore K V)
    (k : K) (v : V) (ttl now ver : Nat) : CacheStore K V :=
  ⟨fun k2 => if k2 = k then some ⟨v, now, ttl, ver⟩ else s.entries k2⟩

/-- Modelled from the spec: `CacheStore.Get` (spec section 4.1) —
`found = false` if the entry is absent, expired, or tagged with a stale
session version. -/
def CacheStore.Get {K V : Type} (s : CacheStore K V) (k : K)
    (now ver : Nat) : Option V × Bool :=
  match s.entries k with
  | none => (none, false)
  | some e => if entryValid now ver e then (some e.value, true) else (none, false)

/-- Modelled from the spec: `SessionContext` (spec section 3) — the
current account/region/profile selection and the monotonically
increasing version. -/
structure SessionContext where
  accountIdentifier : String
  region : String
  profile : String
  version : Nat

/-- Modelled from the spec: the switch-session operation (spec sections
3 and 4.3) — replaces the selection and increments `version`. -/
def SwitchSession (sc : SessionContext) (acct reg prof : String) :
    SessionContext :=
  { accountIdentifier := acct, region := reg, profile := prof,
    version := sc.version + 1 }

/-- Modelled from the spec: `InFlightFetch` (spec section 3) — the key,
the ordered subscriber list (subscribers are channel identifiers,
modelled as `Nat`) and the stamping session version.  `startedAt` and
the cancellation handle are not needed by any claim. -/
structure InFlightFetch (K : Type) where
  key : K
  subscribers : List Nat
  sessionVersion : Nat

/-- Modelled from the spec: the `FetchCoordinator` state (spec section
4.2) — the in-flight table (at most one record per key) together with
the log of fetch-function invocations, one key occurrence per
invocation, so that invocations per key can be counted. -/
structure FetchCoordinator (K : Type) where
  inFlight : List (InFlightFetch K)
  started : List K

/-- Modelled from the spec: lookup of the (at most one) in-flight
record for a key in the table of the missing FetchCoordinator. -/
def findFetch {K : Type} [DecidableEq K] (l : List (InFlightFetch K))
    (k : K) : Option (InFlightFetch K) :=
  l.find? (fun f => decide (f.key = k))

/-- Modelled from the spec: `RequestFetch` (spec section 4.2) as one
atomic check-then-act step (the spec requires creation and join to be a
single atomic step): join the existing in-flight fetch for the key by
appending to its subscriber list, else create a new record with this
caller as sole subscriber and invoke the fetch function (logged in
`started`). -/
def RequestFetch {K : Type} [DecidableEq K] (c : FetchCoordinator K)
    (k : K) (ver : Nat) (caller : Nat) : FetchCoordinator K :=
  match findFetch c.inFlight k with
  | some _ =>
    { c with
      inFlight := c.inFlight.map (fun f =>
        if f.key = k then { f with subscribers := f.subscribers ++ [caller] }
        else f) }
  | none =>
    { inFlight := { key := k, subscribers := [caller], sessionVersion := ver } :: c.inFlight,
      started := c.started ++ [k] }

/-- Modelled from the spec: a terminal fetch outcome (spec section 6,
Result consumer) of the missing coordinator: resolved with a value,
failed with a kind and message, or cancelled. -/
inductive FetchOutcome (V : Type) where
  | resolved (v : V) (fromCache : Bool)
  | failed (kind : String) (msg : String)
  | cancelled
deriving DecidableEq

/-- Modelled from the spec: the terminal notification the missing
coordinator delivers to one subscriber. -/
structure FetchNote (V : Type) where
  subscriber : Nat
  outcome : FetchOutcome V
deriving DecidableEq

/-- Modelled from the spec: fetch resolution (spec section 4.2) — on a
terminal outcome every subscriber of the in-flight record of the key is
notified with that outcome and the record is removed from the table. -/
def completeFetch {K V : Type} [DecidableEq K] (c : FetchCoordinator K)
    (k : K) (outcome : FetchOutcome V) :
    FetchCoordinator K × List (FetchNote V) :=
  match findFetch c.inFlight k with
  | none => (c, [])
  | some f =>
    ({ c with inFlight := c.inFlight.filter (fun g => !decide (g.key = k)) },
     f.subscribers.map (fun s => { subscriber := s, outcome := outcome }))

/-- Modelled from the spec: the `ResourceBroker` state (spec section
4.3) — the cache together with the coordinator. -/
structure ResourceBroker (K V : Type) where
  cache : CacheStore K V
  coord : FetchCoordinator K

/-- Modelled from the spec: `ResourceBroker.Request` (spec section 4.3)
— on a cache hit return the cached value resolved immediately, on a
miss delegate to `RequestFetch`. -/
def Request {K V : Type} [DecidableEq K] (b : ResourceBroker K V) (k : K)
    (now ver : Nat) (caller : Nat) : ResourceBroker K V × Option V :=
  match b.cache.Get k now ver with
  | (some v, true) => (b, some v)
  | _ => ({ b with coord := RequestFetch b.coord k ver caller }, none)

/-- Modelled from the spec: delivery of the terminal outcome of a fetch at
the broker (spec section 4.2, "Resolution"): on success the value is
written to the cache and the subscribers notified; on failure or
cancellation the subscribers are notified and nothing is written to the
cache; in every case the in-flight record is removed. -/
def completeBrokerFetch {K V : Type} [DecidableEq K]
    (b : ResourceBroker K V) (k : K) (outcome : FetchOutcome V)
    (ttl now ver : Nat) : ResourceBroker K V × List (FetchNote V) :=
  match completeFetch b.coord k outcome with
  | (c, notes) =>
    match outcome with
    | FetchOutcome.resolved v _ =>
      ({ cache := b.cache.Put k v ttl now ver, coord := c }, notes)
    | _ => ({ b with coord := c }, notes)

/-- Whether a page result is safe to convert: an error page trivially
so, a successful page when none of its configurations would hit a nil
dereference. -/
def pageConvOk (parse : String → Option Nat) :
    Except LambdaError (List FunctionConfiguration) → Bool
  | Except.error _ => true
  | Except.ok fns => (convertPage parse fns).isSome

/-! ## Concrete sample inputs (used by the witness instances) -/

/-- A parse function that rejects every timestamp. -/
def parseNone : String → Option Nat := fun _ => none

/-- A sample variables map with one sensitive and one ordinary key. -/
def varsSample : List (String × String) :=
  [("DB_PASSWORD", "hunter2"), ("PYTHON_ENV", "development")]

/-- A sample SDK configuration (shaped after the LocalStack test
function `test-function`, with a sensitive variable added). -/
def cfgSample : FunctionConfiguration :=
  { FunctionName := some ("test-function")
    Runtime := "python3.9"
    Handler := some ("test_function.lambda_handler")
    Description := none
    MemorySize := some 128
    Timeout := some 30
    State := "Active"
    LastModified := none
    Environment := some { Variables := some varsSample } }

/-- The record the service code builds from `cfgSample`. -/
def fnSample : Function :=
  { Name := "test-function"
    Runtime := "python3.9"
    Handler := "test_function.lambda_handler"
    Description := ""
    Memory := 128
    Timeout := 30
    LastModified := 0
    Status := "Active"
    Environment := [("DB_PASSWORD", "***masked***"), ("PYTHON_ENV", "development")] }

/-- A sample page sequence whose second page fails. -/
def pagesSample : List (Except LambdaError (List FunctionConfiguration)) :=
  [Except.ok [cfgSample], Except.error (LambdaError.providerError ("boom")),
   Except.ok []]

/-- An empty Nat-keyed cache store. -/
def emptyStore : CacheStore Nat Nat := ⟨fun _ => none⟩

/-- A fresh coordinator with no in-flight fetch and no invocation. -/
def emptyCoord : FetchCoordinator Nat := ⟨[], []⟩

/-- A broker over the empty store and the fresh coordinator. -/
def brokerSample : ResourceBroker Nat Nat := ⟨emptyStore, emptyCoord⟩

/-- A coordinator with one in-flight fetch for key 1, subscribers 7 and
8, session version 0. -/
def coordInFlight : FetchCoordinator Nat := ⟨[⟨1, [7, 8], 0⟩], [1]⟩

/-- A broker whose coordinator holds that in-flight fetch. -/
def brokerInFlight : ResourceBroker Nat Nat := ⟨emptyStore, coordInFlight⟩

/-! ## Lemmas about the keyword scan -/

/-- The specification-side notion used by the claims: `sens` occurs in
`key` as a contiguous substring. -/
def occursIn (sens key : List Char) : Prop :=
  ∃ p q, p ++ sens ++ q = key

theorem occursIn_of_slice (key sens : List Char) (i : Nat)
    (h : (key.drop i).take sens.length = sens) : occursIn sens key := by
  refine ⟨key.take i, (key.drop i).drop sens.length, ?_⟩
  have h2 := List.take_append_drop sens.length (key.drop i)
  rw [h] at h2
  rw [List.append_assoc, h2, List.take_append_drop]

theorem slice_of_occursIn (key sens : List Char) (h : occursIn sens key) :
    ∃ i, i + sens.length ≤ key.length ∧
      (key.drop i).take sens.length = sens := by
  obtain ⟨p, q, hpq⟩ := h
  refine ⟨p.length, ?_, ?_⟩
  · have := congrArg List.length hpq
    simp [List.length_append] at this
    omega
  · have hdrop : key.drop p.length = sens ++ q := by
      rw [← hpq, List.append_assoc, List.drop_left]
    rw [hdrop, List.take_left]

theorem scanForKeyword_eq_true (key sens : List Char)
    (h : ∃ i, i + sens.length ≤ key.length ∧
      (key.drop i).take sens.length = sens) :
    scanForKeyword key sens = true := by
  obtain ⟨i, hle, hslice⟩ := h
  unfold scanForKeyword
  rw [List.any_eq_true]
  refine ⟨i, List.mem_range.mpr (by omega), decide_eq_true hslice⟩

theorem occursIn_of_scanForKeyword (key sens : List Char)
    (h : scanForKeyword key sens = true) : occursIn sens key := by
  unfold scanForKeyword at h
  rw [List.any_eq_true] at h
  obtain ⟨i, _, hslice⟩ := h
  exact occursIn_of_slice key sens i (of_decide_eq_true hslice)

/-- The embedded `isSensitiveEnvVar` returns `true` exactly when one of
the fixed keywords occurs in the key as a contiguous substring. -/
theorem isSensitiveEnvVar_iff (key : String) :
    isSensitiveEnvVar key = true ↔
      ∃ s ∈ sensitiveKeys, occursIn s.data key.data := by
  unfold isSensitiveEnvVar
  rw [List.any_eq_true]
  constructor
  · rintro ⟨s, hs, hpred⟩
    rw [Bool.and_eq_true] at hpred
    exact ⟨s, hs, occursIn_of_scanForKeyword _ _ hpred.2⟩
  · rintro ⟨s, hs, hocc⟩
    refine ⟨s, hs, ?_⟩
    rw [Bool.and_eq_true]
    obtain ⟨i, hle, hslice⟩ := slice_of_occursIn _ _ hocc
    refine ⟨?_, scanForKeyword_eq_true _ _ ⟨i, hle, hslice⟩⟩
    obtain ⟨p, q, hpq⟩ := hocc
    have hlen := congrArg List.length hpq
    simp [List.length_append] at hlen
    by_cases hgt : s.length < key.length
    · rw [Bool.or_eq_true]
      right
      exact decide_eq_true hgt
    · have hp : p = [] := List.length_eq_zero.mp (by omega)
      have hq : q = [] := List.length_eq_zero.mp (by omega)
      subst hp; subst hq
      simp at hpq
      have hk : key = s := by
        cases key with
        | mk d1 => cases s with
          | mk d2 => simp_all
      rw [Bool.or_eq_true]
      left
      simp [hk]

/-- Looking a key up in the masked association list built by the Go
`for k, v := range` loop: with pairwise distinct keys (Go map keys are
distinct) the binding of `k` is `g k v`. -/
theorem lookup_mask :
    ∀ (vars : List (String × String)) (k v : String),
      (vars.map Prod.fst).Nodup → (k, v) ∈ vars →
      (vars.map (fun kv =>
          (kv.1, if isSensitiveEnvVar kv.1 then "***masked***" else kv.2))).lookup k
        = some (if isSensitiveEnvVar k then "***masked***" else v) := by
  intro vars
  induction vars with
  | nil => intro k v _ h; exact absurd h (List.not_mem_nil _)
  | cons kv rest ih =>
    intro k v hnd h
    obtain ⟨a, b⟩ := kv
    simp only [List.map_cons, List.nodup_cons] at hnd
    rcases List.mem_cons.mp h with heq | hmem
    · injection heq with h1 h2
      subst h1; subst h2
      simp [List.lookup_cons]
    · have hka : k ≠ a := by
        intro hk
        exact hnd.1 (hk ▸ List.mem_map.mpr ⟨(k, v), hmem, rfl⟩)
      simp only [List.map_cons, List.lookup_cons, beq_false_of_ne hka]
      exact ih k v hnd.2 hmem

/-- When the conversion succeeds and the SDK configuration carries a
variables map, the environment of the converted record is that map with the
sensitive-looking bindings masked. -/
theorem convert_env_eq (parse : String → Option Nat)
    (fn : FunctionConfiguration) (F : Function)
    (vars : List (String × String))
    (hF : convertFunctionList parse fn = some F)
    (henv : fn.Environment = some { Variables := some vars }) :
    F.Environment = vars.map (fun kv =>
      (kv.1, if isSensitiveEnvVar kv.1 then "***masked***" else kv.2)) := by
  unfold convertFunctionList at hF
  split at hF
  · injection hF with hF2
    rw [← hF2, henv]
  · exact absurd hF (by simp)

/-! ## Lemmas about the modelled core -/

theorem findFetch_none_iff {K : Type} [DecidableEq K]
    (l : List (InFlightFetch K)) (k : K) :
    findFetch l k = none ↔ ∀ f ∈ l, f.key ≠ k := by
  unfold findFetch
  rw [List.find?_eq_none]
  constructor
  · intro h f hf
    have := h f hf
    simpa using this
  · intro h f hf
    simpa using h f hf

theorem findFetch_completeFetch {K V : Type} [DecidableEq K]
    (c : FetchCoordinator K) (k : K) (o : FetchOutcome V) :
    findFetch (completeFetch c k o).1.inFlight k = none := by
  unfold completeFetch
  cases hf : findFetch c.inFlight k with
  | none => simpa using hf
  | some f =>
    simp only
    rw [findFetch_none_iff]
    intro g hg
    have hmem := List.mem_filter.mp hg
    simpa using hmem.2

/-- Folding the atomic `Request` steps of further callers over a broker
whose coordinator already has the in-flight fetch for the key at the
head of its table: the cache is untouched, the callers are appended to
the subscriber list in order, and no further fetch is started. -/
theorem fold_broker_requests {K V : Type} [DecidableEq K]
    (k : K) (now ver : Nat) :
    ∀ (callers : List Nat) (b : ResourceBroker K V) (subs : List Nat)
      (rest : List (InFlightFetch K)),
      b.cache.entries k = none →
      b.coord.inFlight = { key := k, subscribers := subs, sessionVersion := ver } :: rest →
      (∀ f ∈ rest, f.key ≠ k) →
      (callers.foldl (fun bb caller => (Request bb k now ver caller).1) b).cache
          = b.cache ∧
      (callers.foldl (fun bb caller => (Request bb k now ver caller).1) b).coord.inFlight
          = { key := k, subscribers := subs ++ callers, sessionVersion := ver } :: rest ∧
      (callers.foldl (fun bb caller => (Request bb k now ver caller).1) b).coord.started
          = b.coord.started := by
  intro callers
  induction callers with
  | nil =>
    intro b subs rest hc hi hr
    exact ⟨rfl, by simp [hi], rfl⟩
  | cons a as ih =>
    intro b subs rest hc hi hr
    have hget : b.cache.Get k now ver = (none, false) := by
      simp [CacheStore.Get, hc]
    have hfind : findFetch b.coord.inFlight k
        = some { key := k, subscribers := subs, sessionVersion := ver } := by
      rw [hi]
      simp [findFetch, List.find?]
    have hmap : rest.map (fun f =>
        if f.key = k then { f with subscribers := f.subscribers ++ [a] } else f)
        = rest := by
      have hcg := List.map_congr_left (l := rest)
        (f := fun f => if f.key = k then { f with subscribers := f.subscribers ++ [a] } else f)
        (g := id) (fun f hf => by simp [hr f hf])
      rw [hcg, List.map_id]
    have hstep : (Request b k now ver a).1
        = ⟨b.cache, ⟨⟨k, subs ++ [a], ver⟩ :: rest, b.coord.started⟩⟩ := by
      simp only [Request, hget]
      simp only [RequestFetch, hfind]
      simp [hi, hmap]
    rw [List.foldl_cons, hstep]
    have hres := ih ⟨b.cache, ⟨⟨k, subs ++ [a], ver⟩ :: rest, b.coord.started⟩⟩
      (subs ++ [a]) rest hc rfl hr
    refine ⟨hres.1, ?_, hres.2.2⟩
    rw [hres.2.1]
    simp

/-! ## Claims -/

/-- C5: for every environment-variable key `k` of a listed or fetched
function, the returned Environment map binds `k` to `"***masked***"`
when `k` contains one of the fixed sensitive keywords as a contiguous
substring, and binds `k` to its original value otherwise. -/
theorem C5_env_masking (parse : String → Option Nat)
    (fn : FunctionConfiguration) (F : Function)
    (vars : List (String × String)) (k v : String)
    (hF : convertFunctionList parse fn = some F)
    (henv : fn.Environment = some { Variables := some vars })
    (hnd : (vars.map Prod.fst).Nodup)
    (hkv : (k, v) ∈ vars) :
    ((∃ s ∈ sensitiveKeys, occursIn s.data k.data) →
       F.Environment.lookup k = some ("***masked***")) ∧
    ((¬ ∃ s ∈ sensitiveKeys, occursIn s.data k.data) →
       F.Environment.lookup k = some v) := by
  have hEnv := convert_env_eq parse fn F vars hF henv
  have hlook := lookup_mask vars k v hnd hkv
  constructor
  · intro hs
    have hsens : isSensitiveEnvVar k = true := (isSensitiveEnvVar_iff k).mpr hs
    rw [hEnv, hlook, hsens]
    simp
  · intro hs
    have hsens : isSensitiveEnvVar k = false := by
      cases hcase : isSensitiveEnvVar k
      · rfl
      · exact absurd ((isSensitiveEnvVar_iff k).mp hcase) hs
    rw [hEnv, hlook, hsens]
    simp

/-- Witness for C5: the sensitive key `DB_PASSWORD` of the sample
configuration is bound to the mask in the converted record. -/
theorem C5_env_masking_witness :
    convertFunctionList parseNone cfgSample = some fnSample ∧
    cfgSample.Environment = some { Variables := some varsSample } ∧
    (varsSample.map Prod.fst).Nodup ∧
    ("DB_PASSWORD", "hunter2") ∈ varsSample ∧
    (((∃ s ∈ sensitiveKeys, occursIn s.data (("DB_PASSWORD").data)) →
        fnSample.Environment.lookup ("DB_PASSWORD") = some ("***masked***")) ∧
     ((¬ ∃ s ∈ sensitiveKeys, occursIn s.data (("DB_PASSWORD").data)) →
        fnSample.Environment.lookup ("DB_PASSWORD") = some ("hunter2"))) :=
  ⟨rfl, rfl, by decide, by decide,
   C5_env_masking parseNone cfgSample fnSample varsSample
     ("DB_PASSWORD") ("hunter2") rfl rfl (by decide) (by decide)⟩

/-- C8: `ListFunctions` is all-or-nothing over pagination: if any page
errors it returns that (first) error with no partial list, and it
returns a function list exactly when every page succeeded. -/
theorem C8_list_all_or_nothing (parse : String → Option Nat)
    (pages : List (Except LambdaError (List FunctionConfiguration)))
    (hconv : ∀ p ∈ pages, pageConvOk parse p = true) :
    (∀ e, firstError pages = some e →
       ListFunctions parse pages = some (Except.error e)) ∧
    (firstError pages = none →
       ∃ l, ListFunctions parse pages = some (Except.ok l)) := by
  revert hconv
  induction pages with
  | nil =>
    intro _
    exact ⟨fun e h => Option.noConfusion h, fun _ => ⟨[], rfl⟩⟩
  | cons page rest ih =>
    intro hconv
    have hrest : ∀ p ∈ rest, pageConvOk parse p = true :=
      fun p h => hconv p (List.mem_cons_of_mem _ h)
    constructor
    · intro e he
      cases page with
      | error e2 =>
        simp [firstError] at he
        subst he
        rfl
      | ok fns =>
        have hc : (convertPage parse fns).isSome = true :=
          hconv (Except.ok fns) (List.mem_cons_self _ _)
        obtain ⟨converted, hcv⟩ := Option.isSome_iff_exists.mp hc
        have he2 : firstError rest = some e := by simpa [firstError] using he
        have hres := (ih hrest).1 e he2
        simp [ListFunctions, hcv, hres]
    · intro he
      cases page with
      | error e2 => simp [firstError] at he
      | ok fns =>
        have hc : (convertPage parse fns).isSome = true :=
          hconv (Except.ok fns) (List.mem_cons_self _ _)
        obtain ⟨converted, hcv⟩ := Option.isSome_iff_exists.mp hc
        have he2 : firstError rest = none := by simpa [firstError] using he
        obtain ⟨l, hl⟩ := (ih hrest).2 he2
        exact ⟨converted ++ l, by simp [ListFunctions, hcv, hl]⟩

/-- Witness for C8: a run whose second page fails returns exactly that
error. -/
theorem C8_list_all_or_nothing_witness :
    (∀ p ∈ pagesSample, pageConvOk parseNone p = true) ∧
    ((∀ e, firstError pagesSample = some e →
        ListFunctions parseNone pagesSample = some (Except.error e)) ∧
     (firstError pagesSample = none →
        ∃ l, ListFunctions parseNone pagesSample = some (Except.ok l))) :=
  ⟨by decide, C8_list_all_or_nothing parseNone pagesSample (by decide)⟩

/-- C9: the `ListFunctions` and `GetFunction` record constructions are
the same function of the SDK configuration; both default `Description`
to the empty string when absent, and both leave `LastModified` at the
zero time when the timestamp is absent or fails RFC3339 parsing. -/
theorem C9_conversions_agree :
    (∀ parse fn, convertFunctionList parse fn = convertFunctionGet parse fn) ∧
    (∀ parse fn F, convertFunctionList parse fn = some F →
       fn.Description = none → F.Description = "") ∧
    (∀ parse fn F, convertFunctionList parse fn = some F →
       (fn.LastModified = none ∨
         ∃ lm, fn.LastModified = some lm ∧ parse lm = none) →
       F.LastModified = 0) := by
  refine ⟨?_, ?_, ?_⟩
  · intro parse fn
    rfl
  · intro parse fn F hF hd
    unfold convertFunctionList at hF
    split at hF
    · injection hF with hF2
      rw [← hF2]
      simp [hd]
    · exact absurd hF (by simp)
  · intro parse fn F hF hlm
    unfold convertFunctionList at hF
    split at hF
    · injection hF with hF2
      rw [← hF2]
      rcases hlm with h | ⟨lm, hlm1, hlm2⟩
      · simp [h]
      · simp [hlm1, hlm2]
    · exact absurd hF (by simp)

/-- Witness for C9 at the sample configuration: the two conversions
agree, the absent description defaults to the empty string, and the
absent timestamp leaves the zero time. -/
theorem C9_conversions_agree_witness :
    convertFunctionList parseNone cfgSample = convertFunctionGet parseNone cfgSample ∧
    fnSample.Description = "" ∧ fnSample.LastModified = 0 :=
  ⟨C9_conversions_agree.1 parseNone cfgSample,
   C9_conversions_agree.2.1 parseNone cfgSample fnSample rfl rfl,
   C9_conversions_agree.2.2 parseNone cfgSample fnSample rfl (Or.inl rfl)⟩

/-- C10: with non-nil `FunctionName`, `Handler`, `MemorySize` and
`Timeout` the record conversions of `ListFunctions` and `GetFunction`
are panic-free: every unguarded dereference sees a non-nil pointer, so
the conversion produces a record. -/
theorem C10_conversion_panic_free (parse : String → Option Nat)
    (fn : FunctionConfiguration)
    (h1 : fn.FunctionName.isSome = true) (h2 : fn.Handler.isSome = true)
    (h3 : fn.MemorySize.isSome = true) (h4 : fn.Timeout.isSome = true) :
    (convertFunctionList parse fn).isSome = true ∧
    (convertFunctionGet parse fn).isSome = true := by
  obtain ⟨name, hname⟩ := Option.isSome_iff_exists.mp h1
  obtain ⟨handler, hh⟩ := Option.isSome_iff_exists.mp h2
  obtain ⟨memory, hm⟩ := Option.isSome_iff_exists.mp h3
  obtain ⟨timeout, ht⟩ := Option.isSome_iff_exists.mp h4
  constructor
  · simp [convertFunctionList, hname, hh, hm, ht]
  · simp [convertFunctionGet, hname, hh, hm, ht]

/-- Witness for C10 at the sample configuration. -/
theorem C10_conversion_panic_free_witness :
    cfgSample.FunctionName.isSome = true ∧ cfgSample.Handler.isSome = true ∧
    cfgSample.MemorySize.isSome = true ∧ cfgSample.Timeout.isSome = true ∧
    ((convertFunctionList parseNone cfgSample).isSome = true ∧
     (convertFunctionGet parseNone cfgSample).isSome = true) :=
  ⟨by decide, by decide, by decide, by decide,
   C10_conversion_panic_free parseNone cfgSample
     (by decide) (by decide) (by decide) (by decide)⟩

/-- C1: a `Put(K, V, ttl = t)` followed by `Get(K)` at a time strictly
before `storedAt + t` returns `(V, true)`, and a `Get(K)` at any time
strictly after `storedAt + t` returns `(_, false)`, for every key and
value (session unchanged between the Put and the Get). -/
theorem C1_ttl_correctness {K V : Type} [DecidableEq K]
    (s : CacheStore K V) (k : K) (v : V) (t stored ver : Nat) :
    (∀ now, stored ≤ now → now < stored + t →
       (s.Put k v t stored ver).Get k now ver = (some v, true)) ∧
    (∀ now, stored + t < now →
       ((s.Put k v t stored ver).Get k now ver).2 = false) := by
  constructor
  · intro now h1 h2
    have hval : entryValid now ver ⟨v, stored, t, ver⟩ = true := by
      simp [entryValid]
      omega
    simp [CacheStore.Put, CacheStore.Get, hval]
  · intro now h1
    have hval : entryValid now ver ⟨v, stored, t, ver⟩ = false := by
      simp [entryValid]
      omega
    simp [CacheStore.Put, CacheStore.Get, hval]

/-- Witness for C1: key 1 with value 42 and a 60 second TTL stored at
time 0 is found at time 10 and gone at time 100. -/
theorem C1_ttl_correctness_witness :
    ((0 : Nat) ≤ 10 ∧ 10 < 0 + 60 ∧
      (emptyStore.Put 1 42 60 0 0).Get 1 10 0 = (some 42, true)) ∧
    (0 + 60 < 100 ∧
      ((emptyStore.Put 1 42 60 0 0).Get 1 100 0).2 = false) :=
  ⟨⟨by decide, by decide,
    (C1_ttl_correctness emptyStore 1 42 60 0 0).1 10 (by decide) (by decide)⟩,
   ⟨by decide, (C1_ttl_correctness emptyStore 1 42 60 0 0).2 100 (by decide)⟩⟩

/-- C2: with no cached entry and no in-flight fetch for the key, any
interleaving of N concurrent `Request(K)` calls (the spec makes each
request an atomic check-then-act step, so an interleaving is an
arbitrary order of those steps) invokes the fetch function exactly
once, and on resolution every one of the N callers receives the same
resolved value. -/
theorem C2_single_fetch {K V : Type} [DecidableEq K]
    (b : ResourceBroker K V) (k : K) (now ver : Nat) (callers : List Nat)
    (v : V)
    (hcache : b.cache.entries k = none)
    (hflight : findFetch b.coord.inFlight k = none)
    (hne : callers ≠ []) :
    ((callers.foldl (fun bb caller => (Request bb k now ver caller).1) b).coord.started.count k
        = b.coord.started.count k + 1) ∧
    (∀ caller ∈ callers,
      (⟨caller, FetchOutcome.resolved v false⟩ : FetchNote V) ∈
        (completeFetch
          (callers.foldl (fun bb caller => (Request bb k now ver caller).1) b).coord
          k (FetchOutcome.resolved v false)).2) := by
  obtain ⟨a, as, rfl⟩ := List.exists_cons_of_ne_nil hne
  have hget : b.cache.Get k now ver = (none, false) := by
    simp [CacheStore.Get, hcache]
  have hr : ∀ f ∈ b.coord.inFlight, f.key ≠ k :=
    (findFetch_none_iff b.coord.inFlight k).mp hflight
  have hstep : (Request b k now ver a).1
      = ⟨b.cache, ⟨⟨k, [a], ver⟩ :: b.coord.inFlight, b.coord.started ++ [k]⟩⟩ := by
    simp only [Request, hget]
    simp only [RequestFetch, hflight]
  have hres := fold_broker_requests k now ver as
    ⟨b.cache, ⟨⟨k, [a], ver⟩ :: b.coord.inFlight, b.coord.started ++ [k]⟩⟩
    [a] b.coord.inFlight hcache rfl hr
  rw [List.foldl_cons, hstep]
  constructor
  · rw [hres.2.2]
    simp
  · intro caller hcaller
    have hfind2 : findFetch
        (List.foldl (fun bb caller => (Request bb k now ver caller).1)
          ⟨b.cache, ⟨⟨k, [a], ver⟩ :: b.coord.inFlight, b.coord.started ++ [k]⟩⟩ as).coord.inFlight k
        = some ⟨k, [a] ++ as, ver⟩ := by
      rw [hres.2.1]
      simp [findFetch, List.find?]
    simp only [completeFetch, hfind2]
    exact List.mem_map_of_mem _ hcaller

/-- Witness for C2: three concurrent requests for the uncached key 1
start one fetch and all three callers receive the resolved value 42. -/
theorem C2_single_fetch_witness :
    brokerSample.cache.entries 1 = none ∧
    findFetch brokerSample.coord.inFlight 1 = none ∧
    ([7, 8, 9] : List Nat) ≠ [] ∧
    ((([7, 8, 9].foldl (fun bb caller => (Request bb 1 0 0 caller).1)
          brokerSample).coord.started.count 1
        = brokerSample.coord.started.count 1 + 1) ∧
     (∀ caller ∈ ([7, 8, 9] : List Nat),
       (⟨caller, FetchOutcome.resolved 42 false⟩ : FetchNote Nat) ∈
         (completeFetch
           ([7, 8, 9].foldl (fun bb caller => (Request bb 1 0 0 caller).1)
             brokerSample).coord
           1 (FetchOutcome.resolved 42 false)).2)) :=
  ⟨rfl, rfl, by decide,
   C2_single_fetch brokerSample 1 0 0 [7, 8, 9] 42 rfl rfl (by decide)⟩

/-- C3: every session switch increments the monotonically increasing
version, and a `Get(K)` under the new version never returns a value
stored under the old version, even if the entry has not expired. -/
theorem C3_session_isolation {K V : Type} [DecidableEq K] :
    (∀ sc a r p, (SwitchSession sc a r p).version = sc.version + 1) ∧
    (∀ sc a r p, sc.version < (SwitchSession sc a r p).version) ∧
    (∀ (s : CacheStore K V) k v t stored now sc a r p,
       ((s.Put k v t stored sc.version).Get k now
          (SwitchSession sc a r p).version).2 = false) := by
  refine ⟨fun _ _ _ _ => rfl, fun _ _ _ _ => Nat.lt_succ_self _, ?_⟩
  intro s k v t stored now sc a r p
  have hval : entryValid now (SwitchSession sc a r p).version
      ⟨v, stored, t, sc.version⟩ = false := by
    simp [entryValid, SwitchSession]
  simp [CacheStore.Put, CacheStore.Get, hval]

/-- C4: a failing fetch writes nothing to the cache (a later `Get`
still reports not-found) and removes the in-flight record, so a
subsequent `Request` starts a fresh fetch invocation instead of
replaying the failure. -/
theorem C4_failure_not_cached {K V : Type} [DecidableEq K]
    (b : ResourceBroker K V) (k : K) (kind msg : String)
    (ttl now now2 ver : Nat) (caller : Nat)
    (hcache : b.cache.entries k = none) :
    (((completeBrokerFetch b k (FetchOutcome.failed kind msg) ttl now ver).1.cache.Get
        k now2 ver) = (none, false)) ∧
    (findFetch (completeBrokerFetch b k (FetchOutcome.failed kind msg) ttl now ver).1.coord.inFlight
        k = none) ∧
    ((Request (completeBrokerFetch b k (FetchOutcome.failed kind msg) ttl now ver).1
        k now2 ver caller).1.coord.started
      = (completeBrokerFetch b k (FetchOutcome.failed kind msg) ttl now ver).1.coord.started
          ++ [k]) := by
  rcases hcp : completeFetch b.coord k (FetchOutcome.failed (V := V) kind msg)
    with ⟨c, notes⟩
  have hb1 : (completeBrokerFetch b k (FetchOutcome.failed kind msg) ttl now ver).1
      = ⟨b.cache, c⟩ := by
    simp [completeBrokerFetch, hcp]
  have hfind : findFetch c.inFlight k = none := by
    have hff := findFetch_completeFetch b.coord k (FetchOutcome.failed (V := V) kind msg)
    rw [hcp] at hff
    exact hff
  have hget : b.cache.Get k now2 ver = (none, false) := by
    simp [CacheStore.Get, hcache]
  refine ⟨?_, ?_, ?_⟩
  · rw [hb1]
    exact hget
  · rw [hb1]
    exact hfind
  · rw [hb1]
    simp [Request, hget, RequestFetch, hfind]

/-- Witness for C4: failing the in-flight fetch for key 1 leaves the
cache empty for it, and the next request starts a second invocation. -/
theorem C4_failure_not_cached_witness :
    brokerInFlight.cache.entries 1 = none ∧
    ((((completeBrokerFetch brokerInFlight 1 (FetchOutcome.failed ("ProviderError") ("boom")) 60 0 0).1.cache.Get
         1 5 0) = (none, false)) ∧
     (findFetch (completeBrokerFetch brokerInFlight 1 (FetchOutcome.failed ("ProviderError") ("boom")) 60 0 0).1.coord.inFlight
         1 = none) ∧
     ((Request (completeBrokerFetch brokerInFlight 1 (FetchOutcome.failed ("ProviderError") ("boom")) 60 0 0).1
         1 5 0 7).1.coord.started
       = (completeBrokerFetch brokerInFlight 1 (FetchOutcome.failed ("ProviderError") ("boom")) 60 0 0).1.coord.started
           ++ [1])) :=
  ⟨rfl, C4_failure_not_cached brokerInFlight 1 ("ProviderError") ("boom") 60 0 5 0 7 rfl⟩

/-- C6: for every fetch and every terminal outcome — resolved, failed
or cancelled — each subscriber of the fetch receives exactly one
terminal notification carrying that outcome, no subscriber is left
without one, and no notification goes to a non-subscriber. -/
theorem C6_terminal_notification {K V : Type} [DecidableEq K]
    (c : FetchCoordinator K) (k : K) (f : InFlightFetch K)
    (outcome : FetchOutcome V)
    (hf : findFetch c.inFlight k = some f)
    (hnd : f.subscribers.Nodup) :
    (∀ s ∈ f.subscribers,
       ((completeFetch c k outcome).2.map FetchNote.subscriber).count s = 1) ∧
    (∀ s ∈ f.subscribers,
       (⟨s, outcome⟩ : FetchNote V) ∈ (completeFetch c k outcome).2) ∧
    (∀ n ∈ (completeFetch c k outcome).2, n.subscriber ∈ f.subscribers) := by
  have hnotes : (completeFetch c k outcome).2
      = f.subscribers.map (fun s => ⟨s, outcome⟩) := by
    simp only [completeFetch, hf]
  refine ⟨?_, ?_, ?_⟩
  · intro s hs
    rw [hnotes, List.map_map]
    have hid : (FetchNote.subscriber ∘ fun s => (⟨s, outcome⟩ : FetchNote V))
        = id := rfl
    rw [hid, List.map_id]
    exact List.count_eq_one_of_mem hnd hs
  · intro s hs
    rw [hnotes]
    exact List.mem_map_of_mem _ hs
  · intro n hn
    rw [hnotes] at hn
    obtain ⟨s, hs, rfl⟩ := List.mem_map.mp hn
    exact hs

/-- Witness for C6: cancelling the fetch for key 1 notifies subscribers
7 and 8 exactly once each. -/
theorem C6_terminal_notification_witness :
    findFetch coordInFlight.inFlight 1 = some ⟨1, [7, 8], 0⟩ ∧
    ([7, 8] : List Nat).Nodup ∧
    ((∀ s ∈ ([7, 8] : List Nat),
        ((completeFetch coordInFlight 1 (FetchOutcome.cancelled (V := Nat))).2.map
          FetchNote.subscriber).count s = 1) ∧
     (∀ s ∈ ([7, 8] : List Nat),
        (⟨s, FetchOutcome.cancelled⟩ : FetchNote Nat) ∈
          (completeFetch coordInFlight 1 (FetchOutcome.cancelled (V := Nat))).2) ∧
     (∀ n ∈ (completeFetch coordInFlight 1 (FetchOutcome.cancelled (V := Nat))).2,
        n.subscriber ∈ ([7, 8] : List Nat))) :=
  ⟨rfl, by decide,
   C6_terminal_notification coordInFlight 1 ⟨1, [7, 8], 0⟩
     (FetchOutcome.cancelled (V := Nat)) rfl (by decide)⟩

/-- C7: the view invokes the fetch under a context with a bounded (30
second) deadline, and a fetch whose work exceeds the deadline produces
a timeout failure status, never a hang. -/
theorem C7_fetch_deadline (now duration : Nat)
    (result : Except LambdaError (List Function))
    (hd : 30 < duration) :
    (loadFunctionsCtx now).deadline = some (now + 30) ∧
    loadFunctions now duration result = "Error: context deadline exceeded" := by
  refine ⟨rfl, ?_⟩
  have hlt : now + 30 < now + duration := by omega
  simp [loadFunctions, runWithDeadline, loadFunctionsCtx, hlt]

/-- Witness for C7: a fetch taking 31 seconds under the 30 second
deadline reports the timeout, even though its own result was ready. -/
theorem C7_fetch_deadline_witness :
    30 < 31 ∧
    ((loadFunctionsCtx 0).deadline = some (0 + 30) ∧
     loadFunctions 0 31 (Except.ok []) = "Error: context deadline exceeded") :=
  ⟨by decide, C7_fetch_deadline 0 31 (Except.ok []) (by decide)⟩

end LazyCloud
